import Mathlib

/-!
Verification of the orchestration core of
`src/experiments/supercell_micro_surrogate/generate_micro_data.cpp`
(miniWeatherML).

The driver couples several physical operators (dynamics, Kessler
microphysics, sponge layer, column nudging) around a shared mutable
coupler state and harvests (pre, post, dt, etime) samples around the
microphysics step.  Time values are modelled as rationals; the physical
operators are opaque state transformers supplied as parameters, exactly
as the driver treats them (it only calls `init`, `time_step`, and
`compute_time_step` on them).
-/

namespace MiniWeatherML

/-- The set of operations the driver `main` invokes on external physical
modules, over an abstract coupler-state type `σ`.  Mirrors the calls made
in `generate_micro_data.cpp`: `micro.init`, `dycore.init`,
`column_nudger.set_column`, `modules::perturb_temperature`,
`data_generator.init`, `dycore.compute_time_step`, `dycore.time_step`,
`micro.time_step`, `modules::sponge_layer`, `column_nudger.nudge_to_column`. -/
structure Ops (σ : Type) where
  initMicro : σ → σ
  initDycore : σ → σ
  setColumn : σ → σ
  perturbTemperature : σ → σ
  initDataGenerator : σ → σ
  computeTimeStep : σ → ℚ
  dycoreTimeStep : σ → ℚ → σ
  microTimeStep : σ → ℚ → σ
  spongeLayer : σ → ℚ → σ
  nudgeToColumn : σ → ℚ → σ

/-- One record emitted by `data_generator.generate_samples(input, coupler,
dtphys, etime)` at line 81: the cloned pre-microphysics state, the live
post-microphysics state, the step size and the elapsed time. -/
structure Sample (σ : Type) where
  pre : σ
  post : σ
  dt : ℚ
  etime : ℚ
deriving DecidableEq

/-- Bookkeeping for one loop iteration: the coupler state and the carried
`dtphys` variable at the top of the iteration, the step size actually
taken, and the elapsed time at the start of the iteration. -/
structure IterRec (σ : Type) where
  stateAtStart : σ
  carriedIn : ℚ
  dt : ℚ
  etimeAtStart : ℚ
deriving DecidableEq

/-- Observable events of the driver, in the order the source emits them. -/
inductive Event
  | initMicro
  | initDycore
  | setColumn
  | perturbTemp
  | initDataGen
  | computeDt (dt : ℚ)
  | dycoreStep (dt : ℚ)
  | snapshot
  | microStep (dt : ℚ)
  | emit (dt : ℚ) (etime : ℚ)
  | sponge (dt : ℚ)
  | nudge (dt : ℚ)
  | advanceTime (dt : ℚ)
deriving DecidableEq

/-- The five initialization events of lines 57–61 are not loop events. -/
def Event.isInit : Event → Bool
  | .initMicro => true
  | .initDycore => true
  | .setColumn => true
  | .perturbTemp => true
  | .initDataGen => true
  | _ => false

/-- Result of running the `while (etime < sim_time)` loop of lines 66–87:
the iteration records, the emitted samples, the event trace, the final
elapsed time, final coupler state, final carried `dtphys`, and whether
the loop exited through its guard (`ok = true`) rather than running out
of modelling fuel (`ok = false`). -/
structure RunResult (σ : Type) where
  iters : List (IterRec σ)
  samples : List (Sample σ)
  events : List Event
  finalEtime : ℚ
  finalState : σ
  finalDtphys : ℚ
  ok : Bool
deriving DecidableEq

/-- Lines 68–70 of `generate_micro_data.cpp`: the step size one loop
iteration actually takes.  Line 68: when the configured `dtphys_in <= 0`,
`dtphys` is set to the dycore's stable time step on the current coupler
state, otherwise the carried `dtphys` variable is kept.  Line 70: if the
step would go past `sim_time`, it is limited to exactly hit it. -/
def stepDt {σ : Type} (ops : Ops σ) (simTime dtphysIn : ℚ) (coupler : σ)
    (etime dtphys : ℚ) : ℚ :=
  let dt0 : ℚ := if dtphysIn ≤ 0 then ops.computeTimeStep coupler else dtphys
  if etime + dt0 > simTime then simTime - etime else dt0

/-- The loop of lines 66–87 of `generate_micro_data.cpp`, with a fuel
bound on the number of iterations (the C++ loop has no such bound; `ok =
false` marks a run that still had iterations to go).  Each iteration:
lines 68–70 compute the step size (`stepDt`), line 73 steps the
dycore, lines 76–77 clone the coupler, line 79 steps the microphysics,
line 81 emits the sample, lines 83–84 run sponge layer and column
nudging, line 86 advances `etime`.  `dtphys` is a persistent variable,
so its (possibly clamped) value is carried to the next iteration. -/
def runLoop {σ : Type} (ops : Ops σ) (simTime dtphysIn : ℚ) :
    Nat → σ → ℚ → ℚ → RunResult σ
  | 0, coupler, etime, dtphys =>
      if etime < simTime then ⟨[], [], [], etime, coupler, dtphys, false⟩
      else ⟨[], [], [], etime, coupler, dtphys, true⟩
  | fuel + 1, coupler, etime, dtphys =>
      if etime < simTime then
        let dt : ℚ := stepDt ops simTime dtphysIn coupler etime dtphys
        let s1 := ops.dycoreTimeStep coupler dt
        let input := s1
        let s2 := ops.microTimeStep s1 dt
        let smp : Sample σ := ⟨input, s2, dt, etime⟩
        let s3 := ops.spongeLayer s2 dt
        let s4 := ops.nudgeToColumn s3 dt
        let rest := runLoop ops simTime dtphysIn fuel s4 (etime + dt) dt
        ⟨⟨coupler, dtphys, dt, etime⟩ :: rest.iters,
         smp :: rest.samples,
         Event.computeDt dt :: Event.dycoreStep dt :: Event.snapshot ::
           Event.microStep dt :: Event.emit dt etime :: Event.sponge dt ::
           Event.nudge dt :: Event.advanceTime dt :: rest.events,
         rest.finalEtime, rest.finalState, rest.finalDtphys, rest.ok⟩
      else ⟨[], [], [], etime, coupler, dtphys, true⟩

/-- The full driver after configuration: the five initialization calls of
lines 57–61 in source order, then `etime = 0`, `dtphys = dtphys_in`
(lines 63, 65) and the main loop.  Returns the event trace and the loop
result. -/
def mainRun {σ : Type} (ops : Ops σ) (simTime dtphysIn : ℚ) (fuel : Nat)
    (coupler : σ) : List Event × RunResult σ :=
  let c1 := ops.initMicro coupler
  let c2 := ops.initDycore c1
  let c3 := ops.setColumn c2
  let c4 := ops.perturbTemperature c3
  let c5 := ops.initDataGenerator c4
  let r := runLoop ops simTime dtphysIn fuel c5 0 dtphysIn
  (Event.initMicro :: Event.initDycore :: Event.setColumn ::
     Event.perturbTemp :: Event.initDataGen :: r.events, r)

/-- The events one loop iteration contributes, in source order
(lines 68–86). -/
def iterEvents (dt etime : ℚ) : List Event :=
  [Event.computeDt dt, Event.dycoreStep dt, Event.snapshot,
   Event.microStep dt, Event.emit dt etime, Event.sponge dt,
   Event.nudge dt, Event.advanceTime dt]

/-- Trivial operators over a unit state whose dycore reports a stable
time step of 7; used to evaluate the scenario of spec §8. -/
def constOps7 : Ops Unit where
  initMicro := id
  initDycore := id
  setColumn := id
  perturbTemperature := id
  initDataGenerator := id
  computeTimeStep := fun _ => 7
  dycoreTimeStep := fun s _ => s
  microTimeStep := fun s _ => s
  spongeLayer := fun s _ => s
  nudgeToColumn := fun s _ => s

/-- The step-size policy as the specification words it (§4.3, §8
"Step-size clamping"): the candidate is the configured `dt_phys` when
positive, otherwise the dycore's stable step on the current state; the
result is clamped to land exactly on `sim_time`.  This definition follows
the spec's words; the theorems below compare it with what the source loop
does. -/
def policyStepSpec {σ : Type} (ops : Ops σ) (simTime dtphysIn : ℚ)
    (coupler : σ) (etime : ℚ) : ℚ :=
  let c := if 0 < dtphysIn then dtphysIn else ops.computeTimeStep coupler
  if etime + c > simTime then simTime - etime else c

section LoopStructure

variable {σ : Type}

/-- The loop's event trace decomposes into one fixed block of events per
recorded iteration. -/
theorem runLoop_events_flatten (ops : Ops σ) (simTime dtphysIn : ℚ)
    (fuel : Nat) :
    ∀ (coupler : σ) (etime dtphys : ℚ),
      (runLoop ops simTime dtphysIn fuel coupler etime dtphys).events
        = ((runLoop ops simTime dtphysIn fuel coupler etime dtphys).iters.map
            (fun rec => iterEvents rec.dt rec.etimeAtStart)).flatten := by
  induction fuel with
  | zero =>
      intro coupler etime dtphys
      by_cases h : etime < simTime <;> simp [runLoop, h]
  | succ fuel ih =>
      intro coupler etime dtphys
      by_cases h : etime < simTime
      · simp only [runLoop, if_pos h, List.map_cons, List.flatten_cons]
        simp [iterEvents, ih]
      · simp [runLoop, h]

/-- No initialization event ever occurs in the loop's trace. -/
theorem runLoop_events_not_init (ops : Ops σ) (simTime dtphysIn : ℚ)
    (fuel : Nat) :
    ∀ (coupler : σ) (etime dtphys : ℚ),
      ∀ e ∈ (runLoop ops simTime dtphysIn fuel coupler etime dtphys).events,
        e.isInit = false := by
  induction fuel with
  | zero =>
      intro coupler etime dtphys e he
      by_cases h : etime < simTime <;> simp [runLoop, h] at he
  | succ fuel ih =>
      intro coupler etime dtphys e he
      by_cases h : etime < simTime
      · simp only [runLoop, if_pos h, List.mem_cons] at he
        rcases he with rfl | rfl | rfl | rfl | rfl | rfl | rfl | rfl | he
        · rfl
        · rfl
        · rfl
        · rfl
        · rfl
        · rfl
        · rfl
        · rfl
        · exact ih _ _ _ e he
      · simp [runLoop, h] at he

/-- Exactly one sample is recorded per loop iteration. -/
theorem runLoop_samples_length (ops : Ops σ) (simTime dtphysIn : ℚ)
    (fuel : Nat) :
    ∀ (coupler : σ) (etime dtphys : ℚ),
      (runLoop ops simTime dtphysIn fuel coupler etime dtphys).samples.length
        = (runLoop ops simTime dtphysIn fuel coupler etime dtphys).iters.length := by
  induction fuel with
  | zero =>
      intro coupler etime dtphys
      by_cases h : etime < simTime <;> simp [runLoop, h]
  | succ fuel ih =>
      intro coupler etime dtphys
      by_cases h : etime < simTime
      · simp only [runLoop, if_pos h, List.length_cons]
        rw [ih]
      · simp [runLoop, h]

/-- Every emitted sample, paired with its iteration record: the pre-state
is the dycore output of that iteration (the clone is taken strictly after
the dycore step and strictly before the microphysics step), the
post-state is exactly one microphysics step of size `dt` applied to the
pre-state, and the sample's `dt` and `etime` are the iteration's. -/
theorem runLoop_zip_sample_spec (ops : Ops σ) (simTime dtphysIn : ℚ)
    (fuel : Nat) :
    ∀ (coupler : σ) (etime dtphys : ℚ),
      ∀ p ∈ ((runLoop ops simTime dtphysIn fuel coupler etime dtphys).samples.zip
               (runLoop ops simTime dtphysIn fuel coupler etime dtphys).iters),
        p.1.post = ops.microTimeStep p.1.pre p.1.dt ∧
        p.1.pre = ops.dycoreTimeStep p.2.stateAtStart p.2.dt ∧
        p.1.dt = p.2.dt ∧ p.1.etime = p.2.etimeAtStart := by
  induction fuel with
  | zero =>
      intro coupler etime dtphys p hp
      by_cases h : etime < simTime <;> simp [runLoop, h] at hp
  | succ fuel ih =>
      intro coupler etime dtphys p hp
      by_cases h : etime < simTime
      · simp only [runLoop, if_pos h, List.zip_cons_cons, List.mem_cons] at hp
        rcases hp with rfl | hp
        · exact ⟨rfl, rfl, rfl, rfl⟩
        · exact ih _ _ _ p hp
      · simp [runLoop, h] at hp

end LoopStructure

section Claims15

variable {σ : Type}

/-- C1: for every sample emitted by the data generator, the post-state
equals the result of applying exactly one microphysics step of size `dt`
to the pre-state snapshot: the pre-state is the coupler cloned strictly
before `micro.time_step` runs (namely the dycore output of the same
iteration), the post-state is the live coupler strictly after that same
step with no other operator in between, and both carry that iteration's
`dt` and elapsed time. -/
theorem sample_post_is_one_micro_step_of_pre (ops : Ops σ)
    (simTime dtphysIn : ℚ) (fuel : Nat) (coupler : σ) (etime dtphys : ℚ)
    (p : Sample σ × IterRec σ)
    (hp : p ∈ ((runLoop ops simTime dtphysIn fuel coupler etime dtphys).samples.zip
                 (runLoop ops simTime dtphysIn fuel coupler etime dtphys).iters)) :
    p.1.post = ops.microTimeStep p.1.pre p.1.dt ∧
    p.1.pre = ops.dycoreTimeStep p.2.stateAtStart p.2.dt ∧
    p.1.dt = p.2.dt ∧ p.1.etime = p.2.etimeAtStart :=
  runLoop_zip_sample_spec ops simTime dtphysIn fuel coupler etime dtphys p hp

theorem sample_post_is_one_micro_step_of_pre_witness :
    ((⟨(), (), 7, 0⟩ : Sample Unit), (⟨(), 0, 7, 0⟩ : IterRec Unit)).1.post
        = constOps7.microTimeStep
            ((⟨(), (), 7, 0⟩ : Sample Unit), (⟨(), 0, 7, 0⟩ : IterRec Unit)).1.pre
            ((⟨(), (), 7, 0⟩ : Sample Unit), (⟨(), 0, 7, 0⟩ : IterRec Unit)).1.dt ∧
    ((⟨(), (), 7, 0⟩ : Sample Unit), (⟨(), 0, 7, 0⟩ : IterRec Unit)).1.pre
        = constOps7.dycoreTimeStep
            ((⟨(), (), 7, 0⟩ : Sample Unit), (⟨(), 0, 7, 0⟩ : IterRec Unit)).2.stateAtStart
            ((⟨(), (), 7, 0⟩ : Sample Unit), (⟨(), 0, 7, 0⟩ : IterRec Unit)).2.dt ∧
    ((⟨(), (), 7, 0⟩ : Sample Unit), (⟨(), 0, 7, 0⟩ : IterRec Unit)).1.dt
        = ((⟨(), (), 7, 0⟩ : Sample Unit), (⟨(), 0, 7, 0⟩ : IterRec Unit)).2.dt ∧
    ((⟨(), (), 7, 0⟩ : Sample Unit), (⟨(), 0, 7, 0⟩ : IterRec Unit)).1.etime
        = ((⟨(), (), 7, 0⟩ : Sample Unit), (⟨(), 0, 7, 0⟩ : IterRec Unit)).2.etimeAtStart :=
  sample_post_is_one_micro_step_of_pre constOps7 10 0 5 () 0 0
    (⟨(), (), 7, 0⟩, ⟨(), 0, 7, 0⟩) (by norm_num [runLoop, stepDt, constOps7])

/-- C5: every iteration of the running loop executes the operators in
exactly the fixed order of `iterEvents` — compute the step size, dycore
step, pre-state snapshot, microphysics step, sample emission, sponge
layer, column nudge, elapsed-time increment — and nothing else: the
whole loop trace is the concatenation of exactly one such block per
iteration. -/
theorem loop_fixed_operator_order (ops : Ops σ) (simTime dtphysIn : ℚ)
    (fuel : Nat) (coupler : σ) (etime dtphys : ℚ) :
    (runLoop ops simTime dtphysIn fuel coupler etime dtphys).events
      = ((runLoop ops simTime dtphysIn fuel coupler etime dtphys).iters.map
          (fun rec => iterEvents rec.dt rec.etimeAtStart)).flatten :=
  runLoop_events_flatten ops simTime dtphysIn fuel coupler etime dtphys

/-- C6: the driver's trace starts with the five initialization events in
the fixed source order micro.init, dycore.init, column_nudger.set_column,
perturb_temperature, data_generator.init — in particular the temperature
perturbation comes after the nudger's reference-column capture — each
occurring exactly once in the whole trace, and no initialization event
occurs anywhere in the loop part of the trace. -/
theorem init_order_and_uniqueness (ops : Ops σ) (simTime dtphysIn : ℚ)
    (fuel : Nat) (coupler : σ) :
    (mainRun ops simTime dtphysIn fuel coupler).1.take 5
        = [Event.initMicro, Event.initDycore, Event.setColumn,
           Event.perturbTemp, Event.initDataGen] ∧
    (∀ e ∈ (mainRun ops simTime dtphysIn fuel coupler).1.drop 5,
        e.isInit = false) ∧
    (mainRun ops simTime dtphysIn fuel coupler).1.count Event.initMicro = 1 ∧
    (mainRun ops simTime dtphysIn fuel coupler).1.count Event.initDycore = 1 ∧
    (mainRun ops simTime dtphysIn fuel coupler).1.count Event.setColumn = 1 ∧
    (mainRun ops simTime dtphysIn fuel coupler).1.count Event.perturbTemp = 1 ∧
    (mainRun ops simTime dtphysIn fuel coupler).1.count Event.initDataGen = 1 := by
  have hmain : (mainRun ops simTime dtphysIn fuel coupler).1
      = [Event.initMicro, Event.initDycore, Event.setColumn,
         Event.perturbTemp, Event.initDataGen]
        ++ (runLoop ops simTime dtphysIn fuel
             (ops.initDataGenerator (ops.perturbTemperature (ops.setColumn
               (ops.initDycore (ops.initMicro coupler))))) 0 dtphysIn).events := by
    simp [mainRun]
  have hnoinit : ∀ e ∈ (runLoop ops simTime dtphysIn fuel
      (ops.initDataGenerator (ops.perturbTemperature (ops.setColumn
        (ops.initDycore (ops.initMicro coupler))))) 0 dtphysIn).events,
      e.isInit = false :=
    runLoop_events_not_init ops simTime dtphysIn fuel _ 0 dtphysIn
  have hnm : ∀ a : Event, a.isInit = true →
      a ∉ (runLoop ops simTime dtphysIn fuel
        (ops.initDataGenerator (ops.perturbTemperature (ops.setColumn
          (ops.initDycore (ops.initMicro coupler))))) 0 dtphysIn).events := by
    intro a ha hmem
    rw [hnoinit a hmem] at ha
    exact Bool.false_ne_true ha
  refine ⟨?_, ?_, ?_, ?_, ?_, ?_, ?_⟩
  · rw [hmain]
    exact List.take_left' rfl
  · rw [hmain, List.drop_left' (by rfl)]
    exact hnoinit
  · rw [hmain, List.count_append,
      List.count_eq_zero.2 (hnm Event.initMicro rfl)]
    decide
  · rw [hmain, List.count_append,
      List.count_eq_zero.2 (hnm Event.initDycore rfl)]
    decide
  · rw [hmain, List.count_append,
      List.count_eq_zero.2 (hnm Event.setColumn rfl)]
    decide
  · rw [hmain, List.count_append,
      List.count_eq_zero.2 (hnm Event.perturbTemp rfl)]
    decide
  · rw [hmain, List.count_append,
      List.count_eq_zero.2 (hnm Event.initDataGen rfl)]
    decide

/-- C8: with `sim_time = 10`, configured `dt_phys = 0` (auto-compute) and
the dycore's stable-step query always returning 7, the loop exits through
its guard after exactly 2 iterations: the first takes a step of 7
(elapsed becomes 7), the second clamps the candidate 7 down to 3 (elapsed
becomes 10 and the loop ends), and exactly 2 samples are emitted, with
`dt = 7` then `dt = 3`. -/
theorem scenario_auto_step_and_clamp :
    (runLoop constOps7 10 0 5 () 0 0).iters.length = 2 ∧
    (runLoop constOps7 10 0 5 () 0 0).iters.map IterRec.dt = [7, 3] ∧
    (runLoop constOps7 10 0 5 () 0 0).iters.map IterRec.etimeAtStart = [0, 7] ∧
    (runLoop constOps7 10 0 5 () 0 0).samples.length = 2 ∧
    (runLoop constOps7 10 0 5 () 0 0).samples.map Sample.dt = [7, 3] ∧
    (runLoop constOps7 10 0 5 () 0 0).finalEtime = 10 ∧
    (runLoop constOps7 10 0 5 () 0 0).ok = true := by
  norm_num [runLoop, stepDt, constOps7]

end Claims15

section StepProperties

variable {σ : Type}

/-- If the carried `dtphys` equals the configured value (as at loop
entry), the step the code takes is exactly the spec's policy step. -/
theorem stepDt_eq_policySpec (ops : Ops σ) (simTime dtphysIn : ℚ)
    (coupler : σ) (etime dtphys : ℚ)
    (hcarry : ¬ dtphysIn ≤ 0 → dtphys = dtphysIn) :
    stepDt ops simTime dtphysIn coupler etime dtphys
      = policyStepSpec ops simTime dtphysIn coupler etime := by
  simp only [stepDt, policyStepSpec]
  by_cases hle : dtphysIn ≤ 0
  · rw [if_pos hle, if_neg (not_lt.2 hle)]
  · rw [if_neg hle, if_pos (not_le.1 hle), hcarry hle]

/-- When the taken step does not land on `sim_time`, no clamping happened
and so—when a positive `dtphys_in` is configured—the carried value passed
to the next iteration is still `dtphys_in`. -/
theorem stepDt_next_carry (ops : Ops σ) (simTime dtphysIn : ℚ)
    (coupler : σ) (etime dtphys : ℚ)
    (hcarry : ¬ dtphysIn ≤ 0 → dtphys = dtphysIn) :
    etime + stepDt ops simTime dtphysIn coupler etime dtphys < simTime →
    ¬ dtphysIn ≤ 0 →
    stepDt ops simTime dtphysIn coupler etime dtphys = dtphysIn := by
  intro hlt hle
  simp only [stepDt] at hlt ⊢
  by_cases hclamp :
      etime + (if dtphysIn ≤ 0 then ops.computeTimeStep coupler else dtphys)
        > simTime
  · exfalso
    rw [if_pos hclamp] at hlt
    have heq : etime + (simTime - etime) = simTime := by ring
    rw [heq] at hlt
    exact lt_irrefl _ hlt
  · rw [if_neg hclamp, if_neg hle]
    exact hcarry hle

/-- The taken step is strictly positive provided the loop guard holds and
the candidate is positive (a positive configured `dt_phys`, or a dycore
whose stable step is always positive). -/
theorem stepDt_pos (ops : Ops σ) (simTime dtphysIn : ℚ)
    (coupler : σ) (etime dtphys : ℚ)
    (hcomp : dtphysIn ≤ 0 → ∀ s, 0 < ops.computeTimeStep s)
    (hcarry : ¬ dtphysIn ≤ 0 → dtphys = dtphysIn)
    (h : etime < simTime) :
    0 < stepDt ops simTime dtphysIn coupler etime dtphys := by
  simp only [stepDt]
  by_cases hclamp :
      etime + (if dtphysIn ≤ 0 then ops.computeTimeStep coupler else dtphys)
        > simTime
  · rw [if_pos hclamp]
    linarith
  · rw [if_neg hclamp]
    by_cases hle : dtphysIn ≤ 0
    · rw [if_pos hle]
      exact hcomp hle coupler
    · rw [if_neg hle, hcarry hle]
      exact not_le.1 hle

/-- The per-iteration step of the recorded run obeys the spec's policy:
over a run entered with the carried variable equal to the configured
`dtphys_in`, every iteration record's `dt` equals `policyStepSpec` at
that iteration's state and elapsed time. -/
theorem runLoop_iter_dt_policy (ops : Ops σ) (simTime dtphysIn : ℚ)
    (fuel : Nat) :
    ∀ (coupler : σ) (etime dtphys : ℚ),
      (etime < simTime → ¬ dtphysIn ≤ 0 → dtphys = dtphysIn) →
      ∀ r ∈ (runLoop ops simTime dtphysIn fuel coupler etime dtphys).iters,
        r.dt = policyStepSpec ops simTime dtphysIn r.stateAtStart
                 r.etimeAtStart := by
  induction fuel with
  | zero =>
      intro coupler etime dtphys hcarry r hr
      by_cases h : etime < simTime <;> simp [runLoop, h] at hr
  | succ fuel ih =>
      intro coupler etime dtphys hcarry r hr
      by_cases h : etime < simTime
      · simp only [runLoop, if_pos h, List.mem_cons] at hr
        rcases hr with rfl | hr
        · exact stepDt_eq_policySpec ops simTime dtphysIn coupler etime dtphys
            (hcarry h)
        · refine ih _ _ _ ?_ r hr
          intro h' hle
          exact stepDt_next_carry ops simTime dtphysIn coupler etime dtphys
            (hcarry h) h' hle
      · simp [runLoop, h] at hr

/-- Every recorded sample's elapsed time is the entry elapsed time plus
the sum of the `dt` values of the iterations recorded before it (emission
happens before the `etime += dtphys` increment of line 86). -/
theorem runLoop_sample_etime_index (ops : Ops σ) (simTime dtphysIn : ℚ)
    (fuel : Nat) :
    ∀ (coupler : σ) (etime dtphys : ℚ) (k : Nat) (smp : Sample σ),
      (runLoop ops simTime dtphysIn fuel coupler etime dtphys).samples[k]?
          = some smp →
      smp.etime
        = etime + (((runLoop ops simTime dtphysIn fuel coupler etime
            dtphys).iters.take k).map IterRec.dt).sum := by
  induction fuel with
  | zero =>
      intro coupler etime dtphys k smp hget
      by_cases h : etime < simTime <;> simp [runLoop, h] at hget
  | succ fuel ih =>
      intro coupler etime dtphys k smp hget
      by_cases h : etime < simTime
      · simp only [runLoop, if_pos h] at hget ⊢
        match k with
        | 0 =>
            simp only [List.getElem?_cons_zero, Option.some.injEq] at hget
            subst hget
            simp
        | k + 1 =>
            simp only [List.getElem?_cons_succ] at hget
            rw [List.take_succ_cons, List.map_cons, List.sum_cons]
            have := ih _ _ _ k smp hget
            rw [this]
            ring
      · simp [runLoop, h] at hget

end StepProperties

section Claims2and10

variable {σ : Type}

/-- C2: the time-step policy, every iteration: if the configured
`dt_phys` is positive it is the candidate, otherwise the candidate is the
dycore's stable-time-step computation on the current state; if
`elapsed + candidate > sim_time` the step actually taken is exactly
`sim_time - elapsed`, otherwise the candidate is taken unchanged
(`policyStepSpec` is that policy verbatim).  The hypothesis is the loop's
entry condition: the carried `dtphys` variable starts at `dtphys_in`. -/
theorem step_policy_per_iteration (ops : Ops σ) (simTime dtphysIn : ℚ)
    (fuel : Nat) (coupler : σ) (etime dtphys : ℚ)
    (hcarry : etime < simTime → ¬ dtphysIn ≤ 0 → dtphys = dtphysIn)
    (r : IterRec σ)
    (hr : r ∈ (runLoop ops simTime dtphysIn fuel coupler etime dtphys).iters) :
    r.dt = policyStepSpec ops simTime dtphysIn r.stateAtStart
             r.etimeAtStart :=
  runLoop_iter_dt_policy ops simTime dtphysIn fuel coupler etime dtphys
    hcarry r hr

theorem step_policy_per_iteration_witness :
    (⟨(), 7, 3, 7⟩ : IterRec Unit).dt
      = policyStepSpec constOps7 10 0
          (⟨(), 7, 3, 7⟩ : IterRec Unit).stateAtStart
          (⟨(), 7, 3, 7⟩ : IterRec Unit).etimeAtStart :=
  step_policy_per_iteration constOps7 10 0 5 () 0 0
    (fun _ h => absurd (le_refl (0 : ℚ)) h) (⟨(), 7, 3, 7⟩ : IterRec Unit)
    (by norm_num [runLoop, stepDt, constOps7])

/-- C10: in a run started at elapsed time 0 (as the driver does), the
`k`-th emitted sample carries elapsed time equal to the sum of the `dt`
values of iterations `1 … k-1`; in particular the first sample carries
elapsed time 0 — emission happens before line 86's `etime += dtphys`. -/
theorem sample_elapsed_is_sum_of_prior_dts (ops : Ops σ)
    (simTime dtphysIn : ℚ) (fuel : Nat) (coupler : σ) (dtphys : ℚ)
    (k : Nat) (smp : Sample σ)
    (hget : (runLoop ops simTime dtphysIn fuel coupler 0 dtphys).samples[k]?
        = some smp) :
    smp.etime
      = (((runLoop ops simTime dtphysIn fuel coupler 0
          dtphys).iters.take k).map IterRec.dt).sum := by
  have h := runLoop_sample_etime_index ops simTime dtphysIn fuel coupler 0
    dtphys k smp hget
  rw [h, zero_add]

theorem sample_elapsed_is_sum_of_prior_dts_witness :
    (⟨(), (), 3, 7⟩ : Sample Unit).etime
      = (((runLoop constOps7 10 0 5 () 0 0).iters.take 1).map
          IterRec.dt).sum := by
  have happ := sample_elapsed_is_sum_of_prior_dts constOps7 10 0 5 () 0 1
    (⟨(), (), 3, 7⟩ : Sample Unit) (by norm_num [runLoop, stepDt, constOps7])
  exact happ

end Claims2and10

section Ordering

variable {σ : Type}

/-- With positive candidate steps, the emitted samples' elapsed times
strictly increase, and none precedes the elapsed time at loop entry. -/
theorem runLoop_sample_etimes_mono (ops : Ops σ) (simTime dtphysIn : ℚ)
    (hcomp : dtphysIn ≤ 0 → ∀ s, 0 < ops.computeTimeStep s) (fuel : Nat) :
    ∀ (coupler : σ) (etime dtphys : ℚ),
      (etime < simTime → ¬ dtphysIn ≤ 0 → dtphys = dtphysIn) →
      List.Chain' (· < ·)
        ((runLoop ops simTime dtphysIn fuel coupler etime dtphys).samples.map
          Sample.etime) ∧
      ∀ x ∈ (runLoop ops simTime dtphysIn fuel coupler etime
          dtphys).samples.map Sample.etime, etime ≤ x := by
  induction fuel with
  | zero =>
      intro coupler etime dtphys hcarry
      by_cases h : etime < simTime <;> simp [runLoop, h]
  | succ fuel ih =>
      intro coupler etime dtphys hcarry
      by_cases h : etime < simTime
      · have hdtpos : 0 < stepDt ops simTime dtphysIn coupler etime dtphys :=
          stepDt_pos ops simTime dtphysIn coupler etime dtphys hcomp
            (hcarry h) h
        have hcarry' := stepDt_next_carry ops simTime dtphysIn coupler etime
          dtphys (hcarry h)
        obtain ⟨ihc, ihge⟩ := ih
          (ops.nudgeToColumn
            (ops.spongeLayer
              (ops.microTimeStep
                (ops.dycoreTimeStep coupler
                  (stepDt ops simTime dtphysIn coupler etime dtphys))
                (stepDt ops simTime dtphysIn coupler etime dtphys))
              (stepDt ops simTime dtphysIn coupler etime dtphys))
            (stepDt ops simTime dtphysIn coupler etime dtphys))
          (etime + stepDt ops simTime dtphysIn coupler etime dtphys)
          (stepDt ops simTime dtphysIn coupler etime dtphys)
          hcarry'
        simp only [runLoop, if_pos h, List.map_cons]
        constructor
        · refine List.chain'_cons'.2 ⟨?_, ihc⟩
          intro y hy
          have hymem := List.mem_of_mem_head? hy
          have := ihge y hymem
          linarith
        · intro x hx
          rcases List.mem_cons.1 hx with rfl | hx
          · exact le_rfl
          · have := ihge x hx
            linarith
      · simp [runLoop, h]

end Ordering

section Claim7

variable {σ : Type}

/-- C7: over any run, sample records are emitted in strictly increasing
elapsed-time order, exactly one record per completed loop iteration — so
no gaps and no duplicates relative to the iteration count.  The
hypotheses are the driver's setting: candidate steps are positive (either
a positive configured `dt_phys`, or a dycore whose stable step is always
positive) and the carried `dtphys` starts at `dtphys_in`. -/
theorem samples_strictly_increasing_one_per_iteration (ops : Ops σ)
    (simTime dtphysIn : ℚ) (fuel : Nat) (coupler : σ) (etime dtphys : ℚ)
    (hcomp : dtphysIn ≤ 0 → ∀ s, 0 < ops.computeTimeStep s)
    (hcarry : etime < simTime → ¬ dtphysIn ≤ 0 → dtphys = dtphysIn) :
    (runLoop ops simTime dtphysIn fuel coupler etime dtphys).samples.length
        = (runLoop ops simTime dtphysIn fuel coupler etime
            dtphys).iters.length ∧
    List.Chain' (· < ·)
      ((runLoop ops simTime dtphysIn fuel coupler etime dtphys).samples.map
        Sample.etime) :=
  ⟨runLoop_samples_length ops simTime dtphysIn fuel coupler etime dtphys,
   (runLoop_sample_etimes_mono ops simTime dtphysIn hcomp fuel coupler etime
      dtphys hcarry).1⟩

theorem samples_strictly_increasing_witness :
    (runLoop constOps7 10 0 5 () 0 0).samples.length
        = (runLoop constOps7 10 0 5 () 0 0).iters.length ∧
    List.Chain' (· < ·)
      ((runLoop constOps7 10 0 5 () 0 0).samples.map Sample.etime) :=
  samples_strictly_increasing_one_per_iteration constOps7 10 0 5 () 0 0
    (fun _ _ => by norm_num [constOps7])
    (fun _ hne => absurd (le_refl (0 : ℚ)) hne)

end Claim7

section Termination

variable {σ : Type}

/-- Case split on the step actually taken: it is either the clamped
remainder `simTime - etime`, or an unclamped candidate that keeps
`etime + dt ≤ simTime` and is at least the candidates' lower bound δ. -/
theorem stepDt_clamp_or_lb (ops : Ops σ) (simTime dtphysIn δ : ℚ)
    (coupler : σ) (etime dtphys : ℚ)
    (hcomp : dtphysIn ≤ 0 → ∀ s, δ ≤ ops.computeTimeStep s)
    (hfix : ¬ dtphysIn ≤ 0 → δ ≤ dtphysIn)
    (hcarry : ¬ dtphysIn ≤ 0 → dtphys = dtphysIn) :
    stepDt ops simTime dtphysIn coupler etime dtphys = simTime - etime ∨
    (etime + stepDt ops simTime dtphysIn coupler etime dtphys ≤ simTime ∧
      δ ≤ stepDt ops simTime dtphysIn coupler etime dtphys) := by
  simp only [stepDt]
  by_cases hclamp :
      etime + (if dtphysIn ≤ 0 then ops.computeTimeStep coupler else dtphys)
        > simTime
  · left
    rw [if_pos hclamp]
  · right
    rw [if_neg hclamp]
    refine ⟨not_lt.1 hclamp, ?_⟩
    by_cases hle : dtphysIn ≤ 0
    · rw [if_pos hle]
      exact hcomp hle coupler
    · rw [if_neg hle, hcarry hle]
      exact hfix hle

/-- With candidate steps uniformly bounded below by δ > 0, the loop exits
through its guard once the fuel covers `(simTime - etime)/δ` iterations,
the final elapsed time is exactly `simTime`, and the elapsed time is
non-decreasing and never exceeds `simTime` at any observation point. -/
theorem runLoop_reaches_target (ops : Ops σ) (simTime dtphysIn δ : ℚ)
    (hδ : 0 < δ)
    (hcomp : dtphysIn ≤ 0 → ∀ s, δ ≤ ops.computeTimeStep s)
    (hfix : ¬ dtphysIn ≤ 0 → δ ≤ dtphysIn) (fuel : Nat) :
    ∀ (coupler : σ) (etime dtphys : ℚ),
      etime ≤ simTime → simTime - etime ≤ (fuel : ℚ) * δ →
      (etime < simTime → ¬ dtphysIn ≤ 0 → dtphys = dtphysIn) →
      (runLoop ops simTime dtphysIn fuel coupler etime dtphys).ok = true ∧
      (runLoop ops simTime dtphysIn fuel coupler etime dtphys).finalEtime
          = simTime ∧
      (∀ r ∈ (runLoop ops simTime dtphysIn fuel coupler etime dtphys).iters,
         etime ≤ r.etimeAtStart ∧ r.etimeAtStart ≤ simTime) ∧
      List.Chain' (· ≤ ·)
        ((runLoop ops simTime dtphysIn fuel coupler etime dtphys).iters.map
            IterRec.etimeAtStart
          ++ [(runLoop ops simTime dtphysIn fuel coupler etime
              dtphys).finalEtime]) := by
  induction fuel with
  | zero =>
      intro coupler etime dtphys hle hfuel hcarry
      have hge : simTime ≤ etime := by
        push_cast at hfuel
        linarith
      have heq : etime = simTime := le_antisymm hle hge
      have hnot : ¬ etime < simTime := by
        rw [heq]
        exact lt_irrefl _
      simp [runLoop, hnot, heq]
  | succ fuel ih =>
      intro coupler etime dtphys hle hfuel hcarry
      by_cases h : etime < simTime
      · have hdtpos : 0 < stepDt ops simTime dtphysIn coupler etime dtphys :=
          stepDt_pos ops simTime dtphysIn coupler etime dtphys
            (fun hle0 s => lt_of_lt_of_le hδ (hcomp hle0 s)) (hcarry h) h
        have hcarry' := stepDt_next_carry ops simTime dtphysIn coupler etime
          dtphys (hcarry h)
        have hbound :
            etime + stepDt ops simTime dtphysIn coupler etime dtphys
              ≤ simTime ∧
            simTime - (etime + stepDt ops simTime dtphysIn coupler etime
                dtphys) ≤ (fuel : ℚ) * δ := by
          rcases stepDt_clamp_or_lb ops simTime dtphysIn δ coupler etime
              dtphys hcomp hfix (hcarry h) with hcl | ⟨hub, hlb⟩
          · constructor
            · rw [hcl]
              linarith
            · rw [hcl]
              have : (0 : ℚ) ≤ (fuel : ℚ) * δ :=
                mul_nonneg (Nat.cast_nonneg fuel) hδ.le
              linarith
          · refine ⟨hub, ?_⟩
            push_cast at hfuel
            linarith
        obtain ⟨ih1, ih2, ih3, ih4⟩ := ih
          (ops.nudgeToColumn
            (ops.spongeLayer
              (ops.microTimeStep
                (ops.dycoreTimeStep coupler
                  (stepDt ops simTime dtphysIn coupler etime dtphys))
                (stepDt ops simTime dtphysIn coupler etime dtphys))
              (stepDt ops simTime dtphysIn coupler etime dtphys))
            (stepDt ops simTime dtphysIn coupler etime dtphys))
          (etime + stepDt ops simTime dtphysIn coupler etime dtphys)
          (stepDt ops simTime dtphysIn coupler etime dtphys)
          hbound.1 hbound.2 hcarry'
        simp only [runLoop, if_pos h, List.map_cons, List.cons_append]
        refine ⟨ih1, ih2, ?_, ?_⟩
        · intro r hr
          rcases List.mem_cons.1 hr with rfl | hr
          · exact ⟨le_refl etime, hle⟩
          · have h3 := ih3 r hr
            exact ⟨by linarith [h3.1], h3.2⟩
        · refine List.chain'_cons'.2 ⟨?_, ih4⟩
          intro y hy
          have hymem := List.mem_of_mem_head? hy
          rcases List.mem_append.1 hymem with hy1 | hy2
          · obtain ⟨r, hr, rfl⟩ := List.mem_map.1 hy1
            have h3 := ih3 r hr
            linarith [h3.1]
          · have : y = (runLoop ops simTime dtphysIn fuel
                (ops.nudgeToColumn
                  (ops.spongeLayer
                    (ops.microTimeStep
                      (ops.dycoreTimeStep coupler
                        (stepDt ops simTime dtphysIn coupler etime dtphys))
                      (stepDt ops simTime dtphysIn coupler etime dtphys))
                    (stepDt ops simTime dtphysIn coupler etime dtphys))
                  (stepDt ops simTime dtphysIn coupler etime dtphys))
                (etime + stepDt ops simTime dtphysIn coupler etime dtphys)
                (stepDt ops simTime dtphysIn coupler etime
                  dtphys)).finalEtime := by
              simpa using hy2
            rw [this, ih2]
            exact hle
      · have heq : etime = simTime := le_antisymm hle (not_lt.1 h)
        simp [runLoop, h, heq]

end Termination

section Claim3

variable {σ : Type}

/-- C3 (amended): starting from elapsed time 0 with target `simTime > 0`
and every candidate step bounded below by a fixed δ > 0 (a positive
configured `dt_phys`, or a stable-step computation never returning less
than δ), the loop exits through its guard after finitely many iterations
with final elapsed time exactly `simTime`, and at every observation point
the elapsed time is monotonically non-decreasing and never exceeds
`simTime`. -/
theorem loop_terminates_and_hits_target (ops : Ops σ)
    (simTime dtphysIn δ : ℚ) (coupler : σ) (hT : 0 < simTime) (hδ : 0 < δ)
    (hcomp : dtphysIn ≤ 0 → ∀ s, δ ≤ ops.computeTimeStep s)
    (hfix : ¬ dtphysIn ≤ 0 → δ ≤ dtphysIn) :
    ∃ fuel : Nat,
      (runLoop ops simTime dtphysIn fuel coupler 0 dtphysIn).ok = true ∧
      (runLoop ops simTime dtphysIn fuel coupler 0 dtphysIn).finalEtime
          = simTime ∧
      (∀ r ∈ (runLoop ops simTime dtphysIn fuel coupler 0 dtphysIn).iters,
         0 ≤ r.etimeAtStart ∧ r.etimeAtStart ≤ simTime) ∧
      List.Chain' (· ≤ ·)
        ((runLoop ops simTime dtphysIn fuel coupler 0 dtphysIn).iters.map
            IterRec.etimeAtStart
          ++ [(runLoop ops simTime dtphysIn fuel coupler 0
              dtphysIn).finalEtime]) := by
  obtain ⟨n, hn⟩ := exists_nat_ge (simTime / δ)
  refine ⟨n, ?_⟩
  have hfuel : simTime - 0 ≤ (n : ℚ) * δ := by
    rw [sub_zero]
    calc simTime = simTime / δ * δ := by field_simp
    _ ≤ (n : ℚ) * δ := mul_le_mul_of_nonneg_right hn hδ.le
  exact runLoop_reaches_target ops simTime dtphysIn δ hδ hcomp hfix n coupler
    0 dtphysIn hT.le hfuel (fun _ _ => rfl)

theorem loop_terminates_and_hits_target_witness :
    ∃ fuel : Nat,
      (runLoop constOps7 10 0 fuel () 0 0).ok = true ∧
      (runLoop constOps7 10 0 fuel () 0 0).finalEtime = 10 ∧
      (∀ r ∈ (runLoop constOps7 10 0 fuel () 0 0).iters,
         0 ≤ r.etimeAtStart ∧ r.etimeAtStart ≤ 10) ∧
      List.Chain' (· ≤ ·)
        ((runLoop constOps7 10 0 fuel () 0 0).iters.map
            IterRec.etimeAtStart
          ++ [(runLoop constOps7 10 0 fuel () 0 0).finalEtime]) :=
  loop_terminates_and_hits_target constOps7 10 0 7 () (by norm_num)
    (by norm_num) (fun _ s => by norm_num [constOps7])
    (fun hne => absurd (le_refl (0 : ℚ)) hne)

/-- Operators over a coupler state that tracks the elapsed time, whose
stable-time-step query returns half of the remaining time to the target
10.  Every value it ever returns during the run is strictly positive, yet
the elapsed time only converges towards 10 and never reaches it. -/
def zenoOps : Ops ℚ where
  initMicro := id
  initDycore := id
  setColumn := id
  perturbTemperature := id
  initDataGenerator := id
  computeTimeStep := fun s => (10 - s) / 2
  dycoreTimeStep := fun s dt => s + dt
  microTimeStep := fun s _ => s
  spongeLayer := fun s _ => s
  nudgeToColumn := fun s _ => s

/-- Invariant of the Zeno run: the tracked state equals the elapsed time,
stays below the target, and the loop never exits through its guard. -/
theorem zeno_invariant :
    ∀ (fuel : Nat) (s etime dtphys : ℚ), s = etime → etime < 10 →
      (runLoop zenoOps 10 0 fuel s etime dtphys).ok = false ∧
      ∀ r ∈ (runLoop zenoOps 10 0 fuel s etime dtphys).iters,
        r.stateAtStart < 10 := by
  intro fuel
  induction fuel with
  | zero =>
      intro s etime dtphys hs h
      constructor
      · simp [runLoop, h]
      · intro r hr
        simp [runLoop, h] at hr
  | succ fuel ih =>
      intro s etime dtphys hs h
      subst hs
      have hnc : ¬ ((10 : ℚ) < s + (10 - s) / 2) := by linarith
      have hstep : stepDt zenoOps 10 0 s s dtphys = (10 - s) / 2 := by
        simp only [stepDt, zenoOps]
        rw [if_pos (le_refl (0 : ℚ))]
        rw [if_neg hnc]
      have hs' : s + (10 - s) / 2 < 10 := by linarith
      simp only [runLoop, if_pos h, hstep]
      simp only [zenoOps]
      obtain ⟨ihok, ihit⟩ := ih (s + (10 - s) / 2) (s + (10 - s) / 2)
        ((10 - s) / 2) rfl hs'
      constructor
      · exact ihok
      · intro r hr
        rcases List.mem_cons.1 hr with rfl | hr
        · exact h
        · exact ihit r hr

/-- C3 counterexample: with target 10, auto-computed steps, and a
stable-time-step computation that returns half of the remaining time —
strictly positive at every state the loop ever queries it on — the loop
never exits through its guard, however many iterations it is allowed:
merely strictly positive candidate steps do not guarantee termination. -/
theorem loop_need_not_terminate_with_positive_steps :
    (∀ fuel : Nat, ∀ r ∈ (runLoop zenoOps 10 0 fuel 0 0 0).iters,
        0 < zenoOps.computeTimeStep r.stateAtStart) ∧
    ¬ ∃ fuel : Nat, (runLoop zenoOps 10 0 fuel 0 0 0).ok = true := by
  constructor
  · intro fuel r hr
    have hinv := (zeno_invariant fuel 0 0 0 rfl (by norm_num)).2 r hr
    show 0 < (10 - r.stateAtStart) / 2
    linarith
  · rintro ⟨fuel, hok⟩
    have hinv := (zeno_invariant fuel 0 0 0 rfl (by norm_num)).1
    rw [hok] at hinv
    exact absurd hinv (by decide)

end Claim3

section CloneContract

/-- Backing storage for coupler field arrays: a heap of dense arrays
addressed by index.  In-place mutation of a field array is an update of
the store at the array's index, so aliasing is observable: two handles
sharing an index see each other's writes. -/
abbrev Store := List (List ℚ)

/-- A coupler handle: grid geometry held by value and the field set
(spec §3: a mapping from field name to a dense array) held as indices
into the backing store. -/
structure CouplerH where
  nz : Nat
  ny : Nat
  nx : Nat
  xlen : ℚ
  ylen : ℚ
  zlen : ℚ
  fieldNames : List String
  fieldRefs : List Nat

/-- Read the array at index `r` of the backing store. -/
def readField (st : Store) (r : Nat) : List ℚ := st.getD r []

/-- Mutate, in place, the array at index `r` of the backing store. -/
def writeField (st : Store) (r : Nat) (a : List ℚ) : Store := st.set r a

/-- Apply a sequence of in-place field mutations to the store. -/
def applyWrites (writes : List (Nat × List ℚ)) (st : Store) : Store :=
  writes.foldl (fun s w => writeField s w.1 w.2) st

/-- Modelled from the spec: `core::Coupler::clone_into` (declared in
`coupler.h`, which is not under `src/`).  Spec §4.1: `clone()` returns a
deep, independent copy of all fields, geometry, options and constants,
allocating fresh backing storage with no aliasing with the source; §3:
grid geometry is copied verbatim and runtime mutable fields by value.
Each field array is copied into a fresh slot appended to the store, and
the clone's handle points at the fresh slots. -/
def clone_into (st : Store) (c : CouplerH) : Store × CouplerH :=
  (st ++ c.fieldRefs.map (readField st),
   { c with fieldRefs := (List.range c.fieldRefs.length).map (st.length + ·) })

theorem getD_range_map (f : Nat → Nat) (n i : Nat) (h : i < n) :
    ((List.range n).map f).getD i 0 = f i := by
  rw [List.getD_eq_getElem?_getD, List.getElem?_map, List.getElem?_range h]
  rfl

theorem getD_map_read (st : Store) (l : List Nat) (i : Nat)
    (h : i < l.length) :
    (l.map (readField st)).getD i [] = readField st (l.getD i 0) := by
  have hx := List.getElem?_eq_getElem (l := l) (n := i) h
  rw [List.getD_eq_getElem?_getD, List.getElem?_map, hx,
    List.getD_eq_getElem?_getD, hx]
  rfl

theorem readField_append_right (st tail : Store) (i : Nat) :
    readField (st ++ tail) (st.length + i) = readField tail i := by
  simp only [readField, List.getD_eq_getElem?_getD,
    List.getElem?_append_right (Nat.le_add_right st.length i),
    Nat.add_sub_cancel_left]

theorem readField_append_left (st tail : Store) (r : Nat)
    (h : r < st.length) :
    readField (st ++ tail) r = readField st r := by
  simp only [readField, List.getD_eq_getElem?_getD,
    List.getElem?_append_left h]

theorem readField_writeField_ne (st : Store) (r j : Nat) (a : List ℚ)
    (h : r ≠ j) :
    readField (writeField st r a) j = readField st j := by
  simp only [readField, writeField, List.getD_eq_getElem?_getD,
    List.getElem?_set_ne h]

theorem readField_applyWrites_ne (writes : List (Nat × List ℚ)) :
    ∀ (st : Store) (j : Nat), (∀ w ∈ writes, w.1 ≠ j) →
      readField (applyWrites writes st) j = readField st j := by
  induction writes with
  | nil =>
      intro st j hne
      rfl
  | cons w ws ih =>
      intro st j hne
      have hstep : applyWrites (w :: ws) st
          = applyWrites ws (writeField st w.1 w.2) := rfl
      rw [hstep, ih (writeField st w.1 w.2) j
        (fun v hv => hne v (List.mem_cons_of_mem w hv)),
        readField_writeField_ne st w.1 j w.2
          (hne w (List.mem_cons_self w ws))]

theorem clone_ref_ge (st : Store) (c : CouplerH) (r : Nat)
    (hr : r ∈ (clone_into st c).2.fieldRefs) : st.length ≤ r := by
  simp only [clone_into, List.mem_map] at hr
  obtain ⟨k, _, rfl⟩ := hr
  exact Nat.le_add_right st.length k

theorem clone_ref_getD (st : Store) (c : CouplerH) (i : Nat)
    (h : i < c.fieldRefs.length) :
    (clone_into st c).2.fieldRefs.getD i 0 = st.length + i :=
  getD_range_map (st.length + ·) c.fieldRefs.length i h

/-- C4: `clone_into` produces a fully independent deep copy of the
coupler state: for a populated state whose field references are live
store slots, (i) the clone's fields are bit-for-bit the source's fields
at clone time; (ii) any sequence of subsequent in-place mutations of the
source's field arrays (e.g. by the microphysics step) leaves every field
of the clone equal to the source's fields at clone time; (iii) any
sequence of in-place mutations of the clone's field arrays never changes
the source's fields; and the grid geometry and field names are copied
verbatim. -/
theorem clone_into_independent (st : Store) (c : CouplerH)
    (hval : ∀ r ∈ c.fieldRefs, r < st.length) :
    (∀ i, i < c.fieldRefs.length →
       readField (clone_into st c).1 ((clone_into st c).2.fieldRefs.getD i 0)
         = readField st (c.fieldRefs.getD i 0)) ∧
    (∀ writes : List (Nat × List ℚ), (∀ w ∈ writes, w.1 ∈ c.fieldRefs) →
       ∀ i, i < c.fieldRefs.length →
         readField (applyWrites writes (clone_into st c).1)
             ((clone_into st c).2.fieldRefs.getD i 0)
           = readField st (c.fieldRefs.getD i 0)) ∧
    (∀ writes : List (Nat × List ℚ),
        (∀ w ∈ writes, w.1 ∈ (clone_into st c).2.fieldRefs) →
       ∀ i, i < c.fieldRefs.length →
         readField (applyWrites writes (clone_into st c).1)
             (c.fieldRefs.getD i 0)
           = readField st (c.fieldRefs.getD i 0)) ∧
    (clone_into st c).2.nz = c.nz ∧ (clone_into st c).2.ny = c.ny ∧
    (clone_into st c).2.nx = c.nx ∧
    (clone_into st c).2.fieldNames = c.fieldNames := by
  have hread : ∀ i, i < c.fieldRefs.length →
      readField (clone_into st c).1 ((clone_into st c).2.fieldRefs.getD i 0)
        = readField st (c.fieldRefs.getD i 0) := by
    intro i hi
    rw [clone_ref_getD st c i hi]
    show readField (st ++ c.fieldRefs.map (readField st)) (st.length + i)
      = readField st (c.fieldRefs.getD i 0)
    rw [readField_append_right st (c.fieldRefs.map (readField st)) i]
    exact getD_map_read st c.fieldRefs i hi
  have hsrc_mem : ∀ i, i < c.fieldRefs.length →
      c.fieldRefs.getD i 0 ∈ c.fieldRefs := by
    intro i hi
    rw [List.getD_eq_getElem?_getD, List.getElem?_eq_getElem hi]
    exact List.getElem_mem hi
  refine ⟨hread, ?_, ?_, rfl, rfl, rfl, rfl⟩
  · intro writes hw i hi
    rw [readField_applyWrites_ne writes (clone_into st c).1
        ((clone_into st c).2.fieldRefs.getD i 0) ?_]
    · exact hread i hi
    · intro w hwmem
      have h1 : w.1 < st.length := hval w.1 (hw w hwmem)
      have h2 : st.length ≤ (clone_into st c).2.fieldRefs.getD i 0 := by
        rw [clone_ref_getD st c i hi]
        exact Nat.le_add_right st.length i
      omega
  · intro writes hw i hi
    have hlt : c.fieldRefs.getD i 0 < st.length :=
      hval (c.fieldRefs.getD i 0) (hsrc_mem i hi)
    rw [readField_applyWrites_ne writes (clone_into st c).1
        (c.fieldRefs.getD i 0) ?_]
    · show readField (st ++ c.fieldRefs.map (readField st))
          (c.fieldRefs.getD i 0) = readField st (c.fieldRefs.getD i 0)
      exact readField_append_left st (c.fieldRefs.map (readField st))
        (c.fieldRefs.getD i 0) hlt
    · intro w hwmem
      have h1 : st.length ≤ w.1 := clone_ref_ge st c w.1 (hw w hwmem)
      omega

theorem clone_into_independent_witness :
    (∀ i, i < (⟨2, 2, 2, 1000, 1000, 1000, ["density", "temp"],
        [0, 1]⟩ : CouplerH).fieldRefs.length →
       readField (clone_into [[1, 2], [3, 4]]
           ⟨2, 2, 2, 1000, 1000, 1000, ["density", "temp"], [0, 1]⟩).1
           ((clone_into [[1, 2], [3, 4]]
             ⟨2, 2, 2, 1000, 1000, 1000, ["density", "temp"],
               [0, 1]⟩).2.fieldRefs.getD i 0)
         = readField [[1, 2], [3, 4]]
             ((⟨2, 2, 2, 1000, 1000, 1000, ["density", "temp"],
               [0, 1]⟩ : CouplerH).fieldRefs.getD i 0)) ∧
    (∀ writes : List (Nat × List ℚ),
        (∀ w ∈ writes, w.1 ∈ (⟨2, 2, 2, 1000, 1000, 1000,
            ["density", "temp"], [0, 1]⟩ : CouplerH).fieldRefs) →
       ∀ i, i < (⟨2, 2, 2, 1000, 1000, 1000, ["density", "temp"],
           [0, 1]⟩ : CouplerH).fieldRefs.length →
         readField (applyWrites writes (clone_into [[1, 2], [3, 4]]
             ⟨2, 2, 2, 1000, 1000, 1000, ["density", "temp"], [0, 1]⟩).1)
             ((clone_into [[1, 2], [3, 4]]
               ⟨2, 2, 2, 1000, 1000, 1000, ["density", "temp"],
                 [0, 1]⟩).2.fieldRefs.getD i 0)
           = readField [[1, 2], [3, 4]]
               ((⟨2, 2, 2, 1000, 1000, 1000, ["density", "temp"],
                 [0, 1]⟩ : CouplerH).fieldRefs.getD i 0)) ∧
    (∀ writes : List (Nat × List ℚ),
        (∀ w ∈ writes, w.1 ∈ (clone_into [[1, 2], [3, 4]]
            ⟨2, 2, 2, 1000, 1000, 1000, ["density", "temp"],
              [0, 1]⟩).2.fieldRefs) →
       ∀ i, i < (⟨2, 2, 2, 1000, 1000, 1000, ["density", "temp"],
           [0, 1]⟩ : CouplerH).fieldRefs.length →
         readField (applyWrites writes (clone_into [[1, 2], [3, 4]]
             ⟨2, 2, 2, 1000, 1000, 1000, ["density", "temp"], [0, 1]⟩).1)
             ((⟨2, 2, 2, 1000, 1000, 1000, ["density", "temp"],
               [0, 1]⟩ : CouplerH).fieldRefs.getD i 0)
           = readField [[1, 2], [3, 4]]
               ((⟨2, 2, 2, 1000, 1000, 1000, ["density", "temp"],
                 [0, 1]⟩ : CouplerH).fieldRefs.getD i 0)) ∧
    (clone_into [[1, 2], [3, 4]]
        ⟨2, 2, 2, 1000, 1000, 1000, ["density", "temp"], [0, 1]⟩).2.nz
      = (⟨2, 2, 2, 1000, 1000, 1000, ["density", "temp"],
          [0, 1]⟩ : CouplerH).nz ∧
    (clone_into [[1, 2], [3, 4]]
        ⟨2, 2, 2, 1000, 1000, 1000, ["density", "temp"], [0, 1]⟩).2.ny
      = (⟨2, 2, 2, 1000, 1000, 1000, ["density", "temp"],
          [0, 1]⟩ : CouplerH).ny ∧
    (clone_into [[1, 2], [3, 4]]
        ⟨2, 2, 2, 1000, 1000, 1000, ["density", "temp"], [0, 1]⟩).2.nx
      = (⟨2, 2, 2, 1000, 1000, 1000, ["density", "temp"],
          [0, 1]⟩ : CouplerH).nx ∧
    (clone_into [[1, 2], [3, 4]]
        ⟨2, 2, 2, 1000, 1000, 1000, ["density", "temp"],
          [0, 1]⟩).2.fieldNames
      = (⟨2, 2, 2, 1000, 1000, 1000, ["density", "temp"],
          [0, 1]⟩ : CouplerH).fieldNames :=
  clone_into_independent [[1, 2], [3, 4]]
    ⟨2, 2, 2, 1000, 1000, 1000, ["density", "temp"], [0, 1]⟩
    (by decide)

end CloneContract

section ConfigurationErrors

/-- The eight YAML keys the driver reads (lines 25–32); `none` models a
key absent from the input file. -/
structure RawConfig where
  sim_time : Option ℚ
  nx : Option Int
  ny : Option Int
  nz : Option Int
  xlen : Option ℚ
  ylen : Option ℚ
  zlen : Option ℚ
  dt_phys : Option ℚ

/-- The scalars the driver runs with after configuration loading. -/
structure DriverConfig where
  sim_time : ℚ
  nx : Int
  ny : Int
  nz : Int
  xlen : ℚ
  ylen : ℚ
  zlen : ℚ
  dt_phys : ℚ

/-- `config[key].as<T>()`: modelled from the spec (yaml-cpp is an
external collaborator, and `endrun` aborts the process): converting an
absent key is a fatal error naming the key. -/
def asKey {α : Type} (key : String) (v : Option α) : Except String α :=
  match v with
  | some x => Except.ok x
  | none => Except.error ("ERROR: missing or invalid key " ++ key)

/-- Lines 21–32 of `generate_micro_data.cpp`: the argument-count check
(line 21), the YAML load, the `!config` validity check (line 24), and the
eight key reads in source order (lines 25–32).  `loaded = none` models
`YAML::LoadFile` failing on an unreadable file; `some none` models a load
yielding an invalid node. -/
def loadDriverConfig (argc : Nat) (loaded : Option (Option RawConfig)) :
    Except String DriverConfig :=
  if argc ≤ 1 then
    Except.error "ERROR: Must pass the input YAML filename as a parameter"
  else
    match loaded with
    | none => Except.error "ERROR: YAML::LoadFile failed"
    | some none => Except.error "ERROR: Invalid YAML input file"
    | some (some rc) =>
        (asKey "sim_time" rc.sim_time).bind fun sim_time =>
        (asKey "nx" rc.nx).bind fun nx =>
        (asKey "ny" rc.ny).bind fun ny =>
        (asKey "nz" rc.nz).bind fun nz =>
        (asKey "xlen" rc.xlen).bind fun xlen =>
        (asKey "ylen" rc.ylen).bind fun ylen =>
        (asKey "zlen" rc.zlen).bind fun zlen =>
        (asKey "dt_phys" rc.dt_phys).bind fun dt_phys =>
        Except.ok ⟨sim_time, nx, ny, nz, xlen, ylen, zlen, dt_phys⟩

/-- Modelled from the spec: `core::Coupler::allocate_coupler_state`
(`coupler.h` is not under `src/`); spec §4.1: allocation fails on any
non-positive extent. -/
def allocate_coupler_state (nz ny nx : Int) : Except String Unit :=
  if nz ≤ 0 ∨ ny ≤ 0 ∨ nx ≤ 0 then
    Except.error "ERROR: allocate_coupler_state: non-positive grid extent"
  else Except.ok ()

/-- The driver `main`: configuration loading (lines 21–32), then state
allocation (line 48), then initialization and the main loop (lines
57–87).  An error at any stage aborts the process with a non-zero status,
modelled as `Except.error`; errors short-circuit, so a configuration
error means the allocation and run stages never execute. -/
def driverMain {σ : Type} (ops : Ops σ) (argc : Nat)
    (loaded : Option (Option RawConfig)) (fuel : Nat) (coupler : σ) :
    Except String (RunResult σ) :=
  (loadDriverConfig argc loaded).bind fun cfg =>
  (allocate_coupler_state cfg.nz cfg.ny cfg.nx).bind fun _ =>
  Except.ok (mainRun ops cfg.sim_time cfg.dt_phys fuel coupler).2

/-- A configuration with every key present and positive grid extents, but
a negative `sim_time`. -/
def negTimeConfig : RawConfig :=
  ⟨some (-1), some 2, some 2, some 2, some 1000, some 1000, some 1000,
   some 1⟩

/-- C9 counterexample: the driver performs no positivity validation of
time (or grid) parameters: with all keys present, positive grid extents,
and `sim_time = -1`, the run is not rejected — it completes cleanly with
zero loop iterations — contradicting the claim that non-positive time
parameters are fatal with a non-zero exit status. -/
theorem nonpositive_sim_time_not_fatal :
    driverMain constOps7 2 (some (some negTimeConfig)) 5 ()
      = Except.ok ⟨[], [], [], 0, (), 1, true⟩ := by
  norm_num [driverMain, loadDriverConfig, asKey, allocate_coupler_state,
    negTimeConfig, mainRun, runLoop, constOps7, Except.bind]

/-- C9 (amended): a missing input-file argument, an unreadable or invalid
configuration file, and an absent required key are fatal, each with a
descriptive diagnostic, and they arise in the configuration stage, before
any state allocation: the driver's overall result is exactly that error
and the allocation and run stages never execute.  A successful load
requires every key to have been present.  (Non-positive grid extents are
rejected at allocation time — modelled from the spec's allocate contract —
not before it, and a non-positive `sim_time` is not an error at all.) -/
theorem config_errors_fatal_before_allocation {σ : Type} (ops : Ops σ)
    (fuel : Nat) (coupler : σ) (argc : Nat)
    (loaded : Option (Option RawConfig)) :
    (argc ≤ 1 → loadDriverConfig argc loaded
        = Except.error
            "ERROR: Must pass the input YAML filename as a parameter") ∧
    (1 < argc → loaded = none → loadDriverConfig argc loaded
        = Except.error "ERROR: YAML::LoadFile failed") ∧
    (1 < argc → loaded = some none → loadDriverConfig argc loaded
        = Except.error "ERROR: Invalid YAML input file") ∧
    (∀ rc : RawConfig, 1 < argc → loaded = some (some rc) →
        rc.sim_time = none → loadDriverConfig argc loaded
          = Except.error "ERROR: missing or invalid key sim_time") ∧
    (∀ (rc : RawConfig) (cfg : DriverConfig), 1 < argc →
        loaded = some (some rc) →
        loadDriverConfig argc loaded = Except.ok cfg →
        rc.sim_time = some cfg.sim_time ∧ rc.nx = some cfg.nx ∧
        rc.ny = some cfg.ny ∧ rc.nz = some cfg.nz ∧
        rc.xlen = some cfg.xlen ∧ rc.ylen = some cfg.ylen ∧
        rc.zlen = some cfg.zlen ∧ rc.dt_phys = some cfg.dt_phys) ∧
    (∀ msg, loadDriverConfig argc loaded = Except.error msg →
        driverMain ops argc loaded fuel coupler = Except.error msg) := by
  refine ⟨?_, ?_, ?_, ?_, ?_, ?_⟩
  · intro h
    simp [loadDriverConfig, h]
  · intro h hl
    subst hl
    simp [loadDriverConfig, Nat.not_le.2 h]
  · intro h hl
    subst hl
    simp [loadDriverConfig, Nat.not_le.2 h]
  · intro rc h hl hst
    subst hl
    simp [loadDriverConfig, Nat.not_le.2 h, asKey, hst, Except.bind]
  · intro rc cfg h hl hok
    subst hl
    rcases rc with ⟨st, nxv, nyv, nzv, xlv, ylv, zlv, dpv⟩
    simp only [loadDriverConfig, if_neg (Nat.not_le.2 h)] at hok
    rcases st with _ | st
    · simp [asKey, Except.bind] at hok
    rcases nxv with _ | nxv
    · simp [asKey, Except.bind] at hok
    rcases nyv with _ | nyv
    · simp [asKey, Except.bind] at hok
    rcases nzv with _ | nzv
    · simp [asKey, Except.bind] at hok
    rcases xlv with _ | xlv
    · simp [asKey, Except.bind] at hok
    rcases ylv with _ | ylv
    · simp [asKey, Except.bind] at hok
    rcases zlv with _ | zlv
    · simp [asKey, Except.bind] at hok
    rcases dpv with _ | dpv
    · simp [asKey, Except.bind] at hok
    simp only [asKey, Except.bind, Except.ok.injEq] at hok
    subst hok
    exact ⟨rfl, rfl, rfl, rfl, rfl, rfl, rfl, rfl⟩
  · intro msg hmsg
    simp [driverMain, hmsg, Except.bind]

theorem config_errors_fatal_witness :
    loadDriverConfig 0 none
        = Except.error
            "ERROR: Must pass the input YAML filename as a parameter" ∧
    driverMain constOps7 0 none 5 ()
        = Except.error
            "ERROR: Must pass the input YAML filename as a parameter" := by
  have h := config_errors_fatal_before_allocation constOps7 5 () 0 none
  have h1 := h.1 (by norm_num)
  exact ⟨h1, h.2.2.2.2.2 _ h1⟩

end ConfigurationErrors

end MiniWeatherML
